import Mathlib

/-!
Verification of the ModelerSearchEnhancer QGIS plugin
(`modeler_search_enhancer.py`).

The plugin polls the application's widget set with a 500 ms timer,
heuristically identifies Processing-Modeler dialogs, and retrofits their
combo boxes with a search completer.  We give a shallow embedding: widgets
and combo boxes are records of the fields the plugin inspects or mutates,
the plugin's instance state (`monitored_widgets`, `enhanced_combos`, the
debounce fields `_is_updating` / `_last_search_text` / `_filter_timer`) is
an explicit state record, and each method is a state-passing function.

Python strings are modelled as `List Char` so that every operation is
kernel-executable.  The `try/except` blocks of the source catch arbitrary
Qt failures; each such block is modelled by a fault oracle: a Boolean
field on the widget or combo box that says whether the Qt calls inside
that block raise, in which case the raw function returns `Except.error`
and the wrapper catches it exactly as the corresponding `except` clause
does.
-/

namespace MSE

/-- Python strings, modelled as character lists so everything reduces. -/
abbrev Str := List Char

/-- ASCII lower-casing of one character (`str.lower` on the ASCII fragment
that the plugin's keyword constants live in). -/
def lowerChar (c : Char) : Char :=
  if 'A' ≤ c ∧ c ≤ 'Z' then Char.ofNat (c.toNat + 32) else c

/-- `s.lower()`. -/
def lowerL (s : Str) : Str := s.map lowerChar

/-- Does `pat` occur at the head of `s`? -/
def leadsWith : Str → Str → Bool
  | [], _ => true
  | _ :: _, [] => false
  | a :: as, b :: bs => a == b && leadsWith as bs

/-- Python's substring test `pat in s`. -/
def containsSub (s pat : Str) : Bool :=
  match s with
  | [] => pat.isEmpty
  | _ :: rest => leadsWith pat s || containsSub rest pat

/-- Drop leading whitespace. -/
def dropLeadingWs : Str → Str
  | [] => []
  | c :: cs => if c.isWhitespace then dropLeadingWs cs else c :: cs

/-- Python's `str.strip()`. -/
def trimL (s : Str) : Str :=
  dropLeadingWs (dropLeadingWs s.reverse).reverse

/-- Helper for `splitWs`: `cur` is the reversed current token. -/
def splitWsAux (cur : Str) : Str → List Str
  | [] => if cur.isEmpty then [] else [cur.reverse]
  | c :: cs =>
    if c.isWhitespace then
      (if cur.isEmpty then splitWsAux [] cs else cur.reverse :: splitWsAux [] cs)
    else splitWsAux (c :: cur) cs

/-- Python's `str.split()` with no argument: split on whitespace runs,
producing no empty tokens. -/
def splitWs (s : Str) : List Str := splitWsAux [] s

/-- Python's `str.isdigit()` (ASCII fragment): nonempty and all digits. -/
def pyIsdigit (s : Str) : Bool := !s.isEmpty && s.all Char.isDigit

/-- Shorthand turning a Lean string literal into the `Str` model. -/
def str (s : String) : Str := s.data

/-! ### The GUI object model

Only the fields the plugin reads or writes are modelled.  A combo box's
line edit exists exactly when Qt has one attached (after
`setEditable(True)` it always does); its fields are inlined into the
combo-box record.  The `_search_enhanced` Python attribute is the
`searchEnhanced` field.  `parentLabels = none` models a combo box whose
`parent()` is null; otherwise it is the list of texts of the `QLabel`
children of the parent. -/

/-- The `QCompleter` that `enhanceComboBox` attaches to the line edit.
`items` is the string list of its current model. -/
structure Completer where
  items : List Str
  caseInsensitive : Bool
  matchContains : Bool
  popupCompletion : Bool
  popupVisible : Bool
deriving DecidableEq, Repr

/-- A `QComboBox` as the plugin sees it. -/
structure ComboBox where
  cid : Nat
  items : List Str
  editable : Bool
  hasLineEdit : Bool
  noInsert : Bool
  searchEnhanced : Bool
  leText : Str
  lePlaceholder : Str
  leCompleter : Option Completer
  leStyled : Bool
  parentLabels : Option (List Str)
  /-- fault oracle: the Qt calls inside `shouldEnhanceComboBox`'s `try` raise -/
  inspectRaises : Bool
  /-- fault oracle: the Qt calls inside `analyzeParentContext`'s `try` raise -/
  parentRaises : Bool
  /-- fault oracle: the Qt calls inside `enhanceComboBox`'s `try` raise -/
  enhanceRaises : Bool
deriving DecidableEq, Repr

/-- A top-level widget as returned by `QgsApplication.allWidgets()`. -/
structure Widget where
  wid : Nat
  windowTitle : Str
  objectName : Str
  isDialog : Bool
  visible : Bool
  combos : List ComboBox
  /-- fault oracle: the Qt calls inside `isModelerWidget` /
  `enhanceModelerWidget`'s `try` blocks raise on this widget -/
  qtRaises : Bool
deriving DecidableEq, Repr

/-! ### `isModelerWidget` (lines 238-262) -/

/-- Body of `isModelerWidget`'s `try` block: the three
`modeler_indicators`, any of which identifies the widget. -/
def isModelerWidgetRaw (w : Widget) : Except Unit Bool :=
  if w.qtRaises then .error () else
  let window_title := lowerL w.windowTitle
  let object_name := lowerL w.objectName
  .ok (((containsSub window_title (str "tabella")
          || containsSub window_title (str "selezione"))
          && w.combos.length != 0)
    || (containsSub object_name (str "modeler") && w.combos.length != 0)
    || (w.isDialog && w.combos.length != 0
          && containsSub (lowerL window_title) (str "utilizzo del risultato")))

/-- `isModelerWidget`: the `except Exception: return False` wrapper.  The
leading `if not widget: return False` null check is not modelled: a
`Widget` record always stands for a live, truthy widget reference. -/
def isModelerWidget (w : Widget) : Bool :=
  match isModelerWidgetRaw w with
  | .ok b => b
  | .error _ => false

/-! ### `analyzeParentContext` (lines 334-374) -/

def input_context_keywords : List Str :=
  [str "layer in ingresso", str "input layer", str "layer input",
   str "utilizzo del risultato", str "use result", str "algorithm result",
   str "campo rimanente", str "remaining field",
   str "selezione", str "selection", str "choose", str "select"]

def exclude_context_keywords : List Str :=
  [str "dependencies", str "dipendenze", str "parameters", str "parametri",
   str "configuration", str "configurazione", str "settings", str "impostazioni"]

/-- The `for label in labels` loop: an exclusion keyword returns `False`,
an input keyword returns `True`, otherwise the next label is tried; after
the loop the function returns `True`. -/
def analyzeLabelsLoop : List Str → Bool
  | [] => true
  | l :: rest =>
    let label_text := lowerL l
    if exclude_context_keywords.any (fun k => containsSub label_text k) then false
    else if input_context_keywords.any (fun k => containsSub label_text k) then true
    else analyzeLabelsLoop rest

/-- Body of `analyzeParentContext`'s `try` block. -/
def analyzeParentContextRaw (c : ComboBox) : Except Unit Bool :=
  if c.parentRaises then .error () else
  match c.parentLabels with
  | none => .ok false
  | some labels => .ok (analyzeLabelsLoop labels)

/-- `analyzeParentContext`: note the wrapper returns `True` (not `False`)
when the `try` block raises (`except Exception: return True`). -/
def analyzeParentContext (c : ComboBox) : Bool :=
  match analyzeParentContextRaw c with
  | .ok b => b
  | .error _ => true

/-! ### `shouldEnhanceComboBox` (lines 289-332) -/

/-- The `sample_items` list: the first `min(3, count)` item texts, kept
only if nonempty, lower-cased. -/
def sampleItems (c : ComboBox) : List Str :=
  ((c.items.take 3).filter (fun t => !t.isEmpty)).map lowerL

/-- The `modeler_input_indicators` disjunction. -/
def modelerInputIndicators (sample : List Str) : Bool :=
  sample.any (fun item => containsSub item (str "\x22"))
  || sample.any (fun item => containsSub item (str "dall\x27algoritmo"))
  || sample.any (fun item => containsSub item (str "from algorithm"))
  || sample.any (fun item => containsSub item (str "output"))
  || sample.any (fun item => containsSub item (str "result"))
  || sample.any (fun item => containsSub item (str "estratto")
        || containsSub item (str "elementi") || containsSub item (str "risultato"))

/-- The `exclude_indicators` disjunction. -/
def excludeIndicators (c : ComboBox) (sample : List Str) : Bool :=
  decide (c.items.length < 3)
  || (sample.filter (fun t => !t.isEmpty)).all (fun item =>
        pyIsdigit item
        || [str "true", str "false", str "yes", str "no"].contains item)
  || (sample.filter (fun t => !t.isEmpty)).all (fun item => item.length < 10)
  || (c.items.length == 1 && !sample.isEmpty
        && (containsSub (sample.headD []) (str "dipendenze")
              || containsSub (sample.headD []) (str "dependencies")))

/-- Body of `shouldEnhanceComboBox`'s `try` block. -/
def shouldEnhanceComboBoxRaw (c : ComboBox) : Except Unit Bool :=
  if c.inspectRaises then .error () else
  if c.items.length == 0 then .ok false else
  let sample := sampleItems c
  .ok (modelerInputIndicators sample
    && !excludeIndicators c sample
    && analyzeParentContext c)

/-- `shouldEnhanceComboBox`: the `except Exception: return False` wrapper. -/
def shouldEnhanceComboBox (c : ComboBox) : Bool :=
  match shouldEnhanceComboBoxRaw c with
  | .ok b => b
  | .error _ => false

/-! ### Plugin state and timers

`QTimer` objects are identified by a fresh natural number; every created
timer is recorded in a trace, so that claims about "which operations
create timers" are statable.  `startedInterval` is `some i` when the
creating operation itself starts the timer with interval `i`
(`setupModelerMonitoring` starts its timer at 500 ms; the debounce timer
of `enhanceComboBox` is only started later, by the text-changed handler,
with 300 ms). -/

/-- The slot a timer's `timeout` signal is connected to. -/
inductive Slot where
  | checkForModelerWidgets
  | safeFilter
deriving DecidableEq, Repr

/-- A record of one `QTimer()` creation. -/
structure TimerEvent where
  tid : Nat
  singleShot : Bool
  startedInterval : Option Nat
  slot : Slot
deriving DecidableEq, Repr

/-- The mutable state of the `ModelerSearchEnhancer` instance:
`monitored_widgets` and `enhanced_combos` (sets of object identities,
modelled by id lists), and the debounce fields `_is_updating`,
`_last_search_text`, `_filter_timer` that `enhanceComboBox` stores on
`self`.  `nextTimerId` and `timersCreated` administer timer identities. -/
structure PState where
  monitored : List Nat
  enhanced : List Nat
  isUpdating : Bool
  lastSearchText : Str
  filterTimer : Option Nat
  nextTimerId : Nat
  timersCreated : List TimerEvent
deriving DecidableEq, Repr

/-- The state after `__init__`: both sets empty, no timers, and the
debounce fields at their pre-first-enhancement defaults. -/
def initState : PState :=
  { monitored := [], enhanced := [], isUpdating := false,
    lastSearchText := [], filterTimer := none, nextTimerId := 0,
    timersCreated := [] }

/-- `setupModelerMonitoring` (lines 201-213): creates `window_timer`,
connects its timeout to `checkForModelerWidgets` and starts it with a
500 ms interval. -/
def setupModelerMonitoring (p : PState) : PState :=
  { p with nextTimerId := p.nextTimerId + 1,
           timersCreated := p.timersCreated
             ++ [⟨p.nextTimerId, false, some 500, Slot.checkForModelerWidgets⟩] }

/-! ### `enhanceComboBox` (lines 376-527) -/

/-- `if not combo_box.isEditable(): combo_box.setEditable(True)`; Qt
creates the line edit when a combo box becomes editable. -/
def ensureEditable (c : ComboBox) : ComboBox :=
  if !c.editable then { c with editable := true, hasLineEdit := true } else c

/-- `enhanceComboBox`.  Returns the new plugin state, the mutated combo
box, and the Python return value: `some true` from the success path,
`none` for the fall-through when `line_edit` is null (the function body
ends without `return`), `some false` from the `except` clause.  A raise
is modelled as happening at the first Qt call of the `try` block, so the
state is unchanged. -/
def enhanceComboBox (p : PState) (c : ComboBox) :
    PState × ComboBox × Option Bool :=
  if c.enhanceRaises then (p, c, some false) else
  let original_items := c.items
  let c1 := ensureEditable c
  if c1.hasLineEdit then
    let c2 := { c1 with lePlaceholder := str "🔍 Digita per filtrare..." }
    let p1 := { p with isUpdating := false, lastSearchText := [] }
    let completer : Completer :=
      { items := original_items, caseInsensitive := true,
        matchContains := true, popupCompletion := true, popupVisible := false }
    let c3 := { c2 with leCompleter := some completer }
    let p2 := { p1 with
        filterTimer := some p1.nextTimerId,
        nextTimerId := p1.nextTimerId + 1,
        timersCreated := p1.timersCreated
          ++ [⟨p1.nextTimerId, true, none, Slot.safeFilter⟩] }
    let c4 := { c3 with leStyled := true, noInsert := true }
    (p2, c4, some true)
  else (p, c1, none)

/-- The filter the closure `safe_filter` computes: the original items, in
order, whose lower-cased text contains every whitespace-separated
lower-cased term of the (stripped) search text. -/
def filteredItems (current_text : Str) (original_items : List Str) : List Str :=
  let search_terms := splitWs (lowerL current_text)
  original_items.filter (fun item =>
    search_terms.all (fun term => containsSub (lowerL item) term))

/-- The closure `safe_filter` (lines 410-449).  It captures `self` (the
debounce fields of `PState`), `line_edit` (whose current text is
`leText`), `original_items` and `completer`; it returns the updated
plugin state and completer. -/
def safe_filter (p : PState) (leText : Str) (original_items : List Str)
    (completer : Completer) : PState × Completer :=
  if p.isUpdating then (p, completer) else
  let current_text := trimL leText
  if current_text = p.lastSearchText then (p, completer) else
  let p1 := { p with lastSearchText := current_text }
  if !current_text.isEmpty then
    let filtered := filteredItems current_text original_items
    if !filtered.isEmpty then
      (p1, { completer with items := filtered, popupVisible := true })
    else
      (p1, { completer with popupVisible := false })
  else
    (p1, { completer with items := original_items })

/-- The closure `on_text_changed` (lines 457-469): unless `_is_updating`
is set it starts `self._filter_timer` with 300 ms.  It reads the plugin
fields at call time; the combo box whose line edit fired is irrelevant to
which timer starts.  Result: the timer id started, with its interval. -/
def onTextChangedStarts (p : PState) : Option (Nat × Nat) :=
  if p.isUpdating then none else p.filterTimer.map (fun t => (t, 300))

/-! ### `enhanceModelerWidget` (lines 264-287) -/

/-- Result of processing a widget or a tick: the plugin state, the
mutated widgets/combos, and bookkeeping lists of what was acted on. -/
structure EnhanceRes where
  st : PState
  combos : List ComboBox
  /-- cids of the combo boxes on which `enhanceComboBox` was called -/
  wired : List Nat
deriving Repr

/-- The `for combo_box in combo_boxes` loop of `enhanceModelerWidget`:
each combo box passing the four-part guard is wired, added to
`enhanced_combos`, and marked `_search_enhanced`. -/
def enhanceLoop (p : PState) : List ComboBox → EnhanceRes
  | [] => ⟨p, [], []⟩
  | c :: rest =>
    if c.cid ∉ p.enhanced ∧ 1 < c.items.length ∧ c.searchEnhanced = false
        ∧ shouldEnhanceComboBox c = true then
      let e := enhanceComboBox p c
      let p2 := { e.1 with enhanced := c.cid :: e.1.enhanced }
      let r := enhanceLoop p2 rest
      ⟨r.st, { e.2.1 with searchEnhanced := true } :: r.combos, c.cid :: r.wired⟩
    else
      let r := enhanceLoop p rest
      ⟨r.st, c :: r.combos, r.wired⟩

/-- `enhanceModelerWidget`: wires the eligible combo-box children; its
`except Exception: pass` makes a raising widget a no-op. -/
def enhanceModelerWidget (p : PState) (w : Widget) :
    PState × Widget × List Nat :=
  if w.qtRaises then (p, w, []) else
  let r := enhanceLoop p w.combos
  (r.st, { w with combos := r.combos }, r.wired)

/-! ### `checkForModelerWidgets` (lines 215-236) -/

/-- Result of one polling tick. -/
structure TickRes where
  st : PState
  widgets : List Widget
  /-- `current_widgets`: wids added to the set during the loop -/
  current : List Nat
  /-- wids on which `enhanceModelerWidget` was called -/
  enhCalls : List Nat
  /-- cids on which `enhanceComboBox` was called -/
  wired : List Nat
deriving Repr

/-- The `for widget in QgsApplication.allWidgets()` loop; `mon0` is the
value `self.monitored_widgets` had when the tick began. -/
def checkLoop (mon0 : List Nat) (p : PState) : List Widget → TickRes
  | [] => ⟨p, [], [], [], []⟩
  | w :: rest =>
    if w.visible = true ∧ isModelerWidget w = true then
      if w.wid ∈ mon0 then
        let r := checkLoop mon0 p rest
        ⟨r.st, w :: r.widgets, w.wid :: r.current, r.enhCalls, r.wired⟩
      else
        let e := enhanceModelerWidget p w
        let r := checkLoop mon0 e.1 rest
        ⟨r.st, e.2.1 :: r.widgets, w.wid :: r.current,
         w.wid :: r.enhCalls, e.2.2 ++ r.wired⟩
    else
      let r := checkLoop mon0 p rest
      ⟨r.st, w :: r.widgets, r.current, r.enhCalls, r.wired⟩

/-- `checkForModelerWidgets`: one timer tick over the widget list `app`;
afterwards `monitored_widgets` is replaced by `current_widgets`. -/
def checkForModelerWidgets (p : PState) (app : List Widget) : TickRes :=
  let r := checkLoop p.monitored p app
  { r with st := { r.st with monitored := r.current } }

/-- `n` consecutive polling ticks; returns the final state, the final
widget list, and the concatenation of all cids wired across the ticks. -/
def runTicks : Nat → PState → List Widget → PState × List Widget × List Nat
  | 0, p, app => (p, app, [])
  | n + 1, p, app =>
    let r := checkForModelerWidgets p app
    let rest := runTicks n r.st r.widgets
    (rest.1, rest.2.1, r.wired ++ rest.2.2)

/-! ### Qt semantics used by the spec claims -/

/-- Qt's insert-policy semantics when the user confirms typed text in an
editable combo box: with `NoInsert` the item list is unchanged, otherwise
the typed text is inserted as a new item. -/
def insertOnUserEntry (c : ComboBox) (t : Str) : ComboBox :=
  if c.noInsert then c else { c with items := c.items ++ [t] }

/-- The `on_text_changed` handler that `enhanceComboBox` installs on a
combo box `c`.  The closure captures only `self` (and the line edit), so
the timer it starts is read from the plugin state at call time and does
not depend on `c` at all. -/
def textHandlerStarts (_c : ComboBox) (p : PState) : Option (Nat × Nat) :=
  onTextChangedStarts p

/-- A creation record of the single-shot debounce timer that
`enhanceComboBox` builds (as opposed to the polling `window_timer`). -/
def isDebounceEvent (e : TimerEvent) : Prop :=
  e.singleShot = true ∧ e.startedInterval = none ∧ e.slot = Slot.safeFilter

/-- A combo box on which `enhanceComboBox` takes the success path: its
`try` block does not raise, and once editable it has a line edit. -/
def succPath (c : ComboBox) : Prop :=
  c.enhanceRaises = false ∧ (ensureEditable c).hasLineEdit = true

instance (c : ComboBox) : Decidable (succPath c) := by
  unfold succPath; infer_instance

/-- A sequence of `enhanceComboBox` calls, tracking the plugin state. -/
def enhanceMany (p : PState) : List ComboBox → PState
  | [] => p
  | c :: cs => enhanceMany (enhanceComboBox p c).1 cs

/-! ### Concrete fixtures (used by witnesses and counterexamples) -/

/-- A typical modeler input combo box: three long output items, an input
layer label in the parent, nothing raising. -/
def comboEx : ComboBox :=
  { cid := 7,
    items := [str "Output dataset alpha", str "Output dataset beta",
              str "Output dataset gamma"],
    editable := false, hasLineEdit := false, noInsert := false,
    searchEnhanced := false, leText := [], lePlaceholder := [],
    leCompleter := none, leStyled := false,
    parentLabels := some [str "Layer in ingresso"],
    inspectRaises := false, parentRaises := false, enhanceRaises := false }

/-- Like `comboEx` but the Qt calls inside `analyzeParentContext` raise. -/
def comboParentRaise : ComboBox := { comboEx with cid := 8, parentRaises := true }

/-- Like `comboEx` but with only two items. -/
def comboTwo : ComboBox :=
  { comboEx with
      cid := 9,
      items := [str "Output dataset alpha", str "Output dataset beta"] }

/-- Like `comboEx` but every modelled `try` block raises on it. -/
def comboAllRaise : ComboBox :=
  { comboEx with
      cid := 10, inspectRaises := true, parentRaises := true,
      enhanceRaises := true }

/-- A visible selection dialog containing `comboEx`. -/
def dialogEx : Widget :=
  { wid := 1, windowTitle := str "Selezione attributo", objectName := [],
    isDialog := true, visible := true, combos := [comboEx], qtRaises := false }

/-- A visible dialog containing the combo box whose parent analysis raises. -/
def widgetParentRaise : Widget := { dialogEx with wid := 2, combos := [comboParentRaise] }

/-- A plain (non-dialog) widget whose title matches the heuristic. -/
def widgetNonDialog : Widget :=
  { wid := 3, windowTitle := str "Tabella attributi", objectName := [],
    isDialog := false, visible := true, combos := [comboTwo], qtRaises := false }

/-- A widget on which the Qt introspection calls raise. -/
def widgetAllRaise : Widget := { dialogEx with wid := 4, qtRaises := true }

end MSE
namespace MSE

theorem ensureEditable_editable (c : ComboBox) : (ensureEditable c).editable = true := by
  unfold ensureEditable; split
  · rfl
  · next h => simpa using h

theorem ensureEditable_items (c : ComboBox) : (ensureEditable c).items = c.items := by
  unfold ensureEditable; split <;> rfl

theorem enhanceComboBox_st_enhanced (p : PState) (c : ComboBox) :
    (enhanceComboBox p c).1.enhanced = p.enhanced := by
  unfold enhanceComboBox; split
  · rfl
  · dsimp only; split <;> rfl

theorem enhanceComboBox_st_monitored (p : PState) (c : ComboBox) :
    (enhanceComboBox p c).1.monitored = p.monitored := by
  unfold enhanceComboBox; split
  · rfl
  · dsimp only; split <;> rfl

theorem enhanceComboBox_items (p : PState) (c : ComboBox) :
    (enhanceComboBox p c).2.1.items = c.items := by
  unfold enhanceComboBox; split
  · rfl
  · dsimp only; split
    · exact ensureEditable_items c
    · exact ensureEditable_items c

theorem enhanceComboBox_timers_cases (p : PState) (c : ComboBox) :
    (enhanceComboBox p c).1.timersCreated = p.timersCreated ∨
    (enhanceComboBox p c).1.timersCreated
      = p.timersCreated ++ [⟨p.nextTimerId, true, none, Slot.safeFilter⟩] := by
  unfold enhanceComboBox; split
  · exact Or.inl rfl
  · dsimp only; split
    · exact Or.inr rfl
    · exact Or.inl rfl

theorem enhanceComboBox_success (p : PState) (c : ComboBox)
    (h1 : c.enhanceRaises = false) (h2 : (ensureEditable c).hasLineEdit = true) :
    (enhanceComboBox p c).2.2 = some true ∧
    (enhanceComboBox p c).2.1.editable = true ∧
    (enhanceComboBox p c).2.1.noInsert = true ∧
    (enhanceComboBox p c).2.1.leCompleter
      = some ⟨c.items, true, true, true, false⟩ ∧
    (enhanceComboBox p c).1.isUpdating = false ∧
    (enhanceComboBox p c).1.lastSearchText = [] ∧
    (enhanceComboBox p c).1.filterTimer = some p.nextTimerId ∧
    (enhanceComboBox p c).1.nextTimerId = p.nextTimerId + 1 := by
  unfold enhanceComboBox
  rw [if_neg (by simp [h1]), if_pos (by simpa using h2)]
  refine ⟨rfl, ?_, rfl, rfl, rfl, rfl, rfl, rfl⟩
  exact ensureEditable_editable c


theorem enhanceLoop_st_enhanced_iff (cs : List ComboBox) : ∀ (p : PState) (x : Nat),
    x ∈ (enhanceLoop p cs).st.enhanced ↔
      x ∈ (enhanceLoop p cs).wired ∨ x ∈ p.enhanced := by
  induction cs with
  | nil => intro p x; simp [enhanceLoop]
  | cons c rest ih =>
    intro p x
    unfold enhanceLoop
    split
    · dsimp only
      rw [ih]
      constructor
      · rintro (h | h)
        · exact Or.inl (List.mem_cons_of_mem _ h)
        · rcases List.mem_cons.mp (by simpa [enhanceComboBox_st_enhanced] using h) with h' | h'
          · exact Or.inl (by simp [h'])
          · exact Or.inr h'
      · rintro (h | h)
        · rcases List.mem_cons.mp h with h' | h'
          · subst h'
            exact Or.inr (by simp [enhanceComboBox_st_enhanced])
          · exact Or.inl h'
        · exact Or.inr (by simp [enhanceComboBox_st_enhanced, h])
    · dsimp only
      exact ih p x


theorem enhanceLoop_wired_sources (cs : List ComboBox) : ∀ (p : PState) (x : Nat),
    x ∈ (enhanceLoop p cs).wired →
    ∃ c ∈ cs, c.cid = x ∧ x ∉ p.enhanced ∧ 1 < c.items.length ∧
      c.searchEnhanced = false ∧ shouldEnhanceComboBox c = true := by
  induction cs with
  | nil => intro p x hx; simp [enhanceLoop] at hx
  | cons c rest ih =>
    intro p x hx
    unfold enhanceLoop at hx
    by_cases hc : c.cid ∉ p.enhanced ∧ 1 < c.items.length ∧ c.searchEnhanced = false
        ∧ shouldEnhanceComboBox c = true
    · rw [if_pos hc] at hx
      dsimp only at hx
      rcases List.mem_cons.mp hx with h' | h'
      · subst h'
        exact ⟨c, List.mem_cons_self c rest, rfl, hc.1, hc.2.1, hc.2.2.1, hc.2.2.2⟩
      · rcases ih _ x h' with ⟨c', hc', hcid, hnm, hlen, hse, hsh⟩
        refine ⟨c', List.mem_cons_of_mem _ hc', hcid, ?_, hlen, hse, hsh⟩
        intro hmem
        exact hnm (by simp [enhanceComboBox_st_enhanced, hmem])
    · rw [if_neg hc] at hx
      dsimp only at hx
      rcases ih p x hx with ⟨c', hc', rest'⟩
      exact ⟨c', List.mem_cons_of_mem _ hc', rest'⟩

theorem enhanceLoop_wired_nodup (cs : List ComboBox) : ∀ (p : PState),
    (enhanceLoop p cs).wired.Nodup := by
  induction cs with
  | nil => intro p; simp [enhanceLoop]
  | cons c rest ih =>
    intro p
    unfold enhanceLoop
    split
    · dsimp only
      refine List.nodup_cons.mpr ⟨?_, ih _⟩
      intro hmem
      rcases enhanceLoop_wired_sources rest _ c.cid hmem with ⟨c', _, _, hnm, _⟩
      exact hnm (by simp [enhanceComboBox_st_enhanced])
    · dsimp only
      exact ih p

theorem enhanceLoop_st_monitored (cs : List ComboBox) : ∀ (p : PState),
    (enhanceLoop p cs).st.monitored = p.monitored := by
  induction cs with
  | nil => intro p; rfl
  | cons c rest ih =>
    intro p
    unfold enhanceLoop
    split
    · dsimp only
      rw [ih]
      simp [enhanceComboBox_st_monitored]
    · dsimp only
      exact ih p

theorem enhanceLoop_timers (cs : List ComboBox) : ∀ (p : PState) (e : TimerEvent),
    e ∈ (enhanceLoop p cs).st.timersCreated →
    e ∈ p.timersCreated ∨ isDebounceEvent e := by
  induction cs with
  | nil => intro p e he; exact Or.inl he
  | cons c rest ih =>
    intro p e he
    unfold enhanceLoop at he
    split at he
    · dsimp only at he
      rcases ih _ e he with h | h
      · rcases enhanceComboBox_timers_cases p c with hc | hc
        · rw [show ({ (enhanceComboBox p c).1 with
              enhanced := c.cid :: (enhanceComboBox p c).1.enhanced } : PState).timersCreated
              = (enhanceComboBox p c).1.timersCreated from rfl, hc] at h
          exact Or.inl h
        · rw [show ({ (enhanceComboBox p c).1 with
              enhanced := c.cid :: (enhanceComboBox p c).1.enhanced } : PState).timersCreated
              = (enhanceComboBox p c).1.timersCreated from rfl, hc] at h
          rcases List.mem_append.mp h with h' | h'
          · exact Or.inl h'
          · refine Or.inr ?_
            rcases List.mem_singleton.mp h' with rfl
            exact ⟨rfl, rfl, rfl⟩
      · exact Or.inr h
    · dsimp only at he
      exact ih p e he


theorem enhanceModelerWidget_st_enhanced_iff (p : PState) (w : Widget) (x : Nat) :
    x ∈ (enhanceModelerWidget p w).1.enhanced ↔
      x ∈ (enhanceModelerWidget p w).2.2 ∨ x ∈ p.enhanced := by
  unfold enhanceModelerWidget
  split
  · simp
  · exact enhanceLoop_st_enhanced_iff w.combos p x

theorem enhanceModelerWidget_wired_sources (p : PState) (w : Widget) (x : Nat)
    (hx : x ∈ (enhanceModelerWidget p w).2.2) :
    ∃ c ∈ w.combos, c.cid = x ∧ x ∉ p.enhanced ∧ 1 < c.items.length ∧
      c.searchEnhanced = false ∧ shouldEnhanceComboBox c = true := by
  unfold enhanceModelerWidget at hx
  split at hx
  · simp at hx
  · exact enhanceLoop_wired_sources w.combos p x hx

theorem enhanceModelerWidget_wired_nodup (p : PState) (w : Widget) :
    (enhanceModelerWidget p w).2.2.Nodup := by
  unfold enhanceModelerWidget
  split
  · simp
  · exact enhanceLoop_wired_nodup w.combos p

theorem enhanceModelerWidget_st_monitored (p : PState) (w : Widget) :
    (enhanceModelerWidget p w).1.monitored = p.monitored := by
  unfold enhanceModelerWidget
  split
  · rfl
  · exact enhanceLoop_st_monitored w.combos p

theorem enhanceModelerWidget_timers (p : PState) (w : Widget) (e : TimerEvent)
    (he : e ∈ (enhanceModelerWidget p w).1.timersCreated) :
    e ∈ p.timersCreated ∨ isDebounceEvent e := by
  unfold enhanceModelerWidget at he
  split at he
  · exact Or.inl he
  · exact enhanceLoop_timers w.combos p e he

theorem checkLoop_st_enhanced_iff (ws : List Widget) :
    ∀ (m : List Nat) (p : PState) (x : Nat),
    x ∈ (checkLoop m p ws).st.enhanced ↔
      x ∈ (checkLoop m p ws).wired ∨ x ∈ p.enhanced := by
  induction ws with
  | nil => intro m p x; simp [checkLoop]
  | cons w rest ih =>
    intro m p x
    unfold checkLoop
    split
    · split
      · dsimp only
        exact ih m p x
      · dsimp only
        rw [ih]
        rw [enhanceModelerWidget_st_enhanced_iff]
        simp only [List.mem_append]
        tauto
    · dsimp only
      exact ih m p x

theorem checkLoop_wired_fresh (ws : List Widget) :
    ∀ (m : List Nat) (p : PState) (x : Nat),
    x ∈ (checkLoop m p ws).wired → x ∉ p.enhanced := by
  induction ws with
  | nil => intro m p x hx; simp [checkLoop] at hx
  | cons w rest ih =>
    intro m p x hx
    unfold checkLoop at hx
    split at hx
    · split at hx
      · dsimp only at hx
        exact ih m p x hx
      · dsimp only at hx
        rcases List.mem_append.mp hx with h | h
        · rcases enhanceModelerWidget_wired_sources p w x h with ⟨_, _, _, hnm, _⟩
          exact hnm
        · intro hmem
          exact ih m _ x h
            ((enhanceModelerWidget_st_enhanced_iff p w x).mpr (Or.inr hmem))
    · dsimp only at hx
      exact ih m p x hx

theorem checkLoop_wired_nodup (ws : List Widget) :
    ∀ (m : List Nat) (p : PState), (checkLoop m p ws).wired.Nodup := by
  induction ws with
  | nil => intro m p; simp [checkLoop]
  | cons w rest ih =>
    intro m p
    unfold checkLoop
    split
    · split
      · dsimp only
        exact ih m p
      · dsimp only
        refine List.Nodup.append (enhanceModelerWidget_wired_nodup p w) (ih m _) ?_
        intro a ha hb
        exact checkLoop_wired_fresh rest m _ a hb
          ((enhanceModelerWidget_st_enhanced_iff p w a).mpr (Or.inl ha))
    · dsimp only
      exact ih m p

theorem checkLoop_timers (ws : List Widget) :
    ∀ (m : List Nat) (p : PState) (e : TimerEvent),
    e ∈ (checkLoop m p ws).st.timersCreated →
    e ∈ p.timersCreated ∨ isDebounceEvent e := by
  induction ws with
  | nil => intro m p e he; exact Or.inl he
  | cons w rest ih =>
    intro m p e he
    unfold checkLoop at he
    split at he
    · split at he
      · dsimp only at he
        exact ih m p e he
      · dsimp only at he
        rcases ih m _ e he with h | h
        · exact enhanceModelerWidget_timers p w e h
        · exact Or.inr h
    · dsimp only at he
      exact ih m p e he

theorem checkLoop_current_iff (ws : List Widget) :
    ∀ (m : List Nat) (p : PState) (i : Nat),
    i ∈ (checkLoop m p ws).current ↔
      ∃ w ∈ ws, w.wid = i ∧ w.visible = true ∧ isModelerWidget w = true := by
  induction ws with
  | nil => intro m p i; simp [checkLoop]
  | cons w rest ih =>
    intro m p i
    unfold checkLoop
    split
    · next hvis =>
      split
      · dsimp only
        rw [List.mem_cons, ih]
        constructor
        · rintro (rfl | ⟨w', hw', rfl, hv, hm⟩)
          · exact ⟨w, List.mem_cons_self w rest, rfl, hvis.1, hvis.2⟩
          · exact ⟨w', List.mem_cons_of_mem _ hw', rfl, hv, hm⟩
        · rintro ⟨w', hw', rfl, hv, hm⟩
          rcases List.mem_cons.mp hw' with rfl | hw''
          · exact Or.inl rfl
          · exact Or.inr ⟨w', hw'', rfl, hv, hm⟩
      · dsimp only
        rw [List.mem_cons, ih]
        constructor
        · rintro (rfl | ⟨w', hw', rfl, hv, hm⟩)
          · exact ⟨w, List.mem_cons_self w rest, rfl, hvis.1, hvis.2⟩
          · exact ⟨w', List.mem_cons_of_mem _ hw', rfl, hv, hm⟩
        · rintro ⟨w', hw', rfl, hv, hm⟩
          rcases List.mem_cons.mp hw' with rfl | hw''
          · exact Or.inl rfl
          · exact Or.inr ⟨w', hw'', rfl, hv, hm⟩
    · next hvis =>
      dsimp only
      rw [ih]
      constructor
      · rintro ⟨w', hw', rfl, hv, hm⟩
        exact ⟨w', List.mem_cons_of_mem _ hw', rfl, hv, hm⟩
      · rintro ⟨w', hw', rfl, hv, hm⟩
        rcases List.mem_cons.mp hw' with rfl | hw''
        · exact absurd ⟨hv, hm⟩ hvis
        · exact ⟨w', hw'', rfl, hv, hm⟩

theorem checkLoop_enhCalls_iff (ws : List Widget) :
    ∀ (m : List Nat) (p : PState) (i : Nat),
    i ∈ (checkLoop m p ws).enhCalls ↔
      ∃ w ∈ ws, w.wid = i ∧ w.visible = true ∧ isModelerWidget w = true ∧ i ∉ m := by
  induction ws with
  | nil => intro m p i; simp [checkLoop]
  | cons w rest ih =>
    intro m p i
    unfold checkLoop
    split
    · next hvis =>
      split
      · next hmem =>
        dsimp only
        rw [ih]
        constructor
        · rintro ⟨w', hw', rfl, hv, hm, hnm⟩
          exact ⟨w', List.mem_cons_of_mem _ hw', rfl, hv, hm, hnm⟩
        · rintro ⟨w', hw', rfl, hv, hm, hnm⟩
          rcases List.mem_cons.mp hw' with rfl | hw''
          · exact absurd hmem hnm
          · exact ⟨w', hw'', rfl, hv, hm, hnm⟩
      · next hmem =>
        dsimp only
        rw [List.mem_cons, ih]
        constructor
        · rintro (rfl | ⟨w', hw', rfl, hv, hm, hnm⟩)
          · exact ⟨w, List.mem_cons_self w rest, rfl, hvis.1, hvis.2, hmem⟩
          · exact ⟨w', List.mem_cons_of_mem _ hw', rfl, hv, hm, hnm⟩
        · rintro ⟨w', hw', rfl, hv, hm, hnm⟩
          rcases List.mem_cons.mp hw' with rfl | hw''
          · exact Or.inl rfl
          · exact Or.inr ⟨w', hw'', rfl, hv, hm, hnm⟩
    · next hvis =>
      dsimp only
      rw [ih]
      constructor
      · rintro ⟨w', hw', rfl, hv, hm, hnm⟩
        exact ⟨w', List.mem_cons_of_mem _ hw', rfl, hv, hm, hnm⟩
      · rintro ⟨w', hw', rfl, hv, hm, hnm⟩
        rcases List.mem_cons.mp hw' with rfl | hw''
        · exact absurd ⟨hv, hm⟩ hvis
        · exact ⟨w', hw'', rfl, hv, hm, hnm⟩


theorem tick_st_enhanced_iff (p : PState) (app : List Widget) (x : Nat) :
    x ∈ (checkForModelerWidgets p app).st.enhanced ↔
      x ∈ (checkForModelerWidgets p app).wired ∨ x ∈ p.enhanced :=
  checkLoop_st_enhanced_iff app p.monitored p x

theorem tick_wired_fresh (p : PState) (app : List Widget) (x : Nat) :
    x ∈ (checkForModelerWidgets p app).wired → x ∉ p.enhanced :=
  checkLoop_wired_fresh app p.monitored p x

theorem tick_wired_nodup (p : PState) (app : List Widget) :
    (checkForModelerWidgets p app).wired.Nodup :=
  checkLoop_wired_nodup app p.monitored p

theorem runTicks_dedup (n : Nat) : ∀ (p : PState) (app : List Widget),
    (runTicks n p app).2.2.Nodup ∧
    ∀ x ∈ (runTicks n p app).2.2, x ∉ p.enhanced := by
  induction n with
  | zero =>
    intro p app
    refine ⟨by simp [runTicks], ?_⟩
    intro x hx
    simp [runTicks] at hx
  | succ n ih =>
    intro p app
    unfold runTicks
    dsimp only
    constructor
    · refine List.Nodup.append (tick_wired_nodup p app)
        (ih (checkForModelerWidgets p app).st (checkForModelerWidgets p app).widgets).1 ?_
      intro a ha hb
      exact (ih _ _).2 a hb
        ((tick_st_enhanced_iff p app a).mpr (Or.inl ha))
    · intro x hx
      rcases List.mem_append.mp hx with h | h
      · exact tick_wired_fresh p app x h
      · intro hmem
        exact (ih _ _).2 x h ((tick_st_enhanced_iff p app x).mpr (Or.inr hmem))

/-- C1: deduplication invariant.  Across any number of polling ticks the
list of combo boxes on which `enhanceComboBox` is invoked has no
duplicates — each combo box is enhanced at most once — no combo box
already in `enhanced_combos` at the start is ever wired again, and any
single `enhanceModelerWidget` call wires only combo boxes that are
outside `enhanced_combos` and not marked with the `_search_enhanced`
attribute. -/
theorem c1_dedup_invariant (n : Nat) (p : PState) (app : List Widget) :
    (runTicks n p app).2.2.Nodup ∧
    (∀ x ∈ (runTicks n p app).2.2, x ∉ p.enhanced) ∧
    (∀ (q : PState) (w : Widget) (x : Nat), x ∈ (enhanceModelerWidget q w).2.2 →
      ∃ c ∈ w.combos, c.cid = x ∧ c.searchEnhanced = false ∧ x ∉ q.enhanced) := by
  refine ⟨(runTicks_dedup n p app).1, (runTicks_dedup n p app).2, ?_⟩
  intro q w x hx
  rcases enhanceModelerWidget_wired_sources q w x hx with ⟨c, hc, hcid, hnm, _, hse, _⟩
  exact ⟨c, hc, hcid, hse, hnm⟩

/-- C3: one polling tick follows the timer → widget scan → heuristic
filter → event rewiring pipeline: afterwards `monitored_widgets` holds
exactly the widgets that are visible and satisfy `isModelerWidget`, and
`enhanceModelerWidget` was called exactly on those of them that were not
in `monitored_widgets` when the tick began. -/
theorem c3_tick_pipeline (p : PState) (app : List Widget) :
    (∀ i : Nat, i ∈ (checkForModelerWidgets p app).st.monitored ↔
      ∃ w ∈ app, w.wid = i ∧ w.visible = true ∧ isModelerWidget w = true) ∧
    (∀ i : Nat, i ∈ (checkForModelerWidgets p app).enhCalls ↔
      ∃ w ∈ app, w.wid = i ∧ w.visible = true ∧ isModelerWidget w = true
        ∧ i ∉ p.monitored) :=
  ⟨fun i => checkLoop_current_iff app p.monitored p i,
   fun i => checkLoop_enhCalls_iff app p.monitored p i⟩


/-- C2 (amended): failures inside `isModelerWidget`,
`shouldEnhanceComboBox`, `enhanceModelerWidget` and `enhanceComboBox` are
silently swallowed and treated as detection misses (`False` / no-op); a
failure inside `analyzeParentContext` is also swallowed, but its
`except` clause returns `True`, so it is treated as a favourable parent
context rather than a miss. -/
theorem c2_failures_swallowed (p : PState) (w : Widget) (c : ComboBox)
    (hw : w.qtRaises = true) (hc : c.inspectRaises = true)
    (hp : c.parentRaises = true) (he : c.enhanceRaises = true) :
    isModelerWidget w = false ∧
    enhanceModelerWidget p w = (p, w, []) ∧
    shouldEnhanceComboBox c = false ∧
    enhanceComboBox p c = (p, c, some false) ∧
    analyzeParentContext c = true := by
  refine ⟨?_, ?_, ?_, ?_, ?_⟩
  · simp [isModelerWidget, isModelerWidgetRaw, hw]
  · simp [enhanceModelerWidget, hw]
  · simp [shouldEnhanceComboBox, shouldEnhanceComboBoxRaw, hc]
  · simp [enhanceComboBox, he]
  · simp [analyzeParentContext, analyzeParentContextRaw, hp]

theorem c2_failures_swallowed_witness :
    isModelerWidget widgetAllRaise = false ∧
    enhanceModelerWidget initState widgetAllRaise = (initState, widgetAllRaise, []) ∧
    shouldEnhanceComboBox comboAllRaise = false ∧
    enhanceComboBox initState comboAllRaise = (initState, comboAllRaise, some false) ∧
    analyzeParentContext comboAllRaise = true :=
  c2_failures_swallowed initState widgetAllRaise comboAllRaise
    (by decide) (by decide) (by decide) (by decide)

/-- C2 counterexample: `comboParentRaise` is a combo box on which the Qt
calls inside `analyzeParentContext` raise, yet `enhanceModelerWidget`
wires it — a raise inside the heuristic is not always treated as a
detection miss. -/
theorem c2_raise_still_enhanced_cex :
    comboParentRaise.parentRaises = true ∧
    analyzeParentContextRaw comboParentRaise = Except.error () ∧
    analyzeParentContext comboParentRaise = true ∧
    (enhanceModelerWidget initState widgetParentRaise).2.2 = [comboParentRaise.cid] := by
  refine ⟨rfl, rfl, rfl, by decide⟩

/-- C5: when `enhanceComboBox` takes its success path (no raise; a line
edit exists once the combo box is editable), the combo box ends up
editable, its line edit carries a completer over the combo box's item
texts configured case-insensitive with `MatchContains`, and the function
returns `True`. -/
theorem c5_success_enhancement (p : PState) (c : ComboBox)
    (h1 : c.enhanceRaises = false) (h2 : (ensureEditable c).hasLineEdit = true) :
    (enhanceComboBox p c).2.1.editable = true ∧
    (enhanceComboBox p c).2.1.leCompleter
      = some ⟨c.items, true, true, true, false⟩ ∧
    (enhanceComboBox p c).2.2 = some true := by
  obtain ⟨ha, hb, _, hd, _⟩ := enhanceComboBox_success p c h1 h2
  exact ⟨hb, hd, ha⟩

theorem c5_success_enhancement_witness :
    (enhanceComboBox initState comboEx).2.1.editable = true ∧
    (enhanceComboBox initState comboEx).2.1.leCompleter
      = some ⟨comboEx.items, true, true, true, false⟩ ∧
    (enhanceComboBox initState comboEx).2.2 = some true :=
  c5_success_enhancement initState comboEx (by decide) (by decide)

/-- C6 (amended): the heuristic does not require a widget to be a
`QDialog` — only the third indicator checks `isinstance(widget,
QDialog)`; what every widget satisfying `isModelerWidget` does have is at
least one `QComboBox` child. -/
theorem c6_modeler_widget_has_combo (w : Widget)
    (h : isModelerWidget w = true) : w.combos ≠ [] := by
  intro hnil
  unfold isModelerWidget isModelerWidgetRaw at h
  rw [hnil] at h
  cases hq : w.qtRaises <;> simp [hq] at h

theorem c6_modeler_widget_has_combo_witness : dialogEx.combos ≠ [] :=
  c6_modeler_widget_has_combo dialogEx (by decide)

/-- C6 counterexample: `widgetNonDialog` has a matching window title and
a combo-box child, so `isModelerWidget` identifies it although it is not
a `QDialog`. -/
theorem c6_not_dialog_cex :
    isModelerWidget widgetNonDialog = true ∧ widgetNonDialog.isDialog = false := by
  refine ⟨by decide, rfl⟩

/-- C7: `enhanceComboBox` preserves the combo box's item list (count and
texts); whenever it returns `True` it has set the `NoInsert` policy, so
confirming user-typed text never adds an item. -/
theorem c7_frame_preservation (p : PState) (c : ComboBox) :
    (enhanceComboBox p c).2.1.items = c.items ∧
    ((enhanceComboBox p c).2.2 = some true →
      (enhanceComboBox p c).2.1.noInsert = true ∧
      ∀ t : Str, insertOnUserEntry (enhanceComboBox p c).2.1 t
        = (enhanceComboBox p c).2.1) := by
  refine ⟨enhanceComboBox_items p c, fun hs => ?_⟩
  have hnoi : (enhanceComboBox p c).2.1.noInsert = true := by
    cases he : c.enhanceRaises with
    | false =>
      cases hle : (ensureEditable c).hasLineEdit with
      | false => simp [enhanceComboBox, he, hle] at hs
      | true => simp [enhanceComboBox, he, hle]
    | true => simp [enhanceComboBox, he] at hs
  exact ⟨hnoi, fun t => by simp [insertOnUserEntry, hnoi]⟩

theorem shouldEnhance_small (c : ComboBox) (h : c.items.length < 3) :
    shouldEnhanceComboBox c = false := by
  have hE : excludeIndicators c (sampleItems c) = true := by
    unfold excludeIndicators
    simp [h]
  unfold shouldEnhanceComboBox shouldEnhanceComboBoxRaw
  cases hb : c.inspectRaises with
  | false =>
    cases h0 : (c.items.length == 0) with
    | false => simp [hb, h0, hE]
    | true => simp [hb, h0]
  | true => simp [hb]

/-- C9: `shouldEnhanceComboBox` returns `False` for every combo box with
fewer than three items, so although `enhanceModelerWidget`'s own guard
admits any count above one, every combo box it actually wires has at
least three items — one with exactly two is never enhanced. -/
theorem c9_small_combo_excluded :
    (∀ c : ComboBox, c.items.length < 3 → shouldEnhanceComboBox c = false) ∧
    (∀ (p : PState) (w : Widget) (x : Nat), x ∈ (enhanceModelerWidget p w).2.2 →
      ∃ c ∈ w.combos, c.cid = x ∧ 3 ≤ c.items.length) := by
  refine ⟨fun c h => shouldEnhance_small c h, ?_⟩
  intro p w x hx
  rcases enhanceModelerWidget_wired_sources p w x hx with ⟨c, hc, hcid, _, _, _, hsh⟩
  refine ⟨c, hc, hcid, ?_⟩
  by_contra hlt
  push_neg at hlt
  rw [shouldEnhance_small c hlt] at hsh
  exact Bool.false_ne_true hsh


/-- C4 (amended): `setupModelerMonitoring` creates the single periodic
polling timer, started with a fixed 500 ms interval and connected to
`checkForModelerWidgets`; in addition, each successful `enhanceComboBox`
call creates one single-shot debounce timer connected to `safe_filter`
(started with 300 ms by the text-changed handler), and those are the only
timers a polling tick can create. -/
theorem c4_timer_discipline (p : PState) (c : ComboBox) (app : List Widget) :
    (setupModelerMonitoring p).timersCreated
      = p.timersCreated
        ++ [⟨p.nextTimerId, false, some 500, Slot.checkForModelerWidgets⟩] ∧
    ((enhanceComboBox p c).1.timersCreated = p.timersCreated ∨
      (enhanceComboBox p c).1.timersCreated
        = p.timersCreated ++ [⟨p.nextTimerId, true, none, Slot.safeFilter⟩]) ∧
    (∀ e ∈ (checkForModelerWidgets p app).st.timersCreated,
      e ∈ p.timersCreated ∨ isDebounceEvent e) ∧
    (onTextChangedStarts p = none ∨
      ∃ tid : Nat, onTextChangedStarts p = some (tid, 300)) := by
  refine ⟨rfl, enhanceComboBox_timers_cases p c, ?_, ?_⟩
  · intro e he
    exact checkLoop_timers app p.monitored p e he
  · unfold onTextChangedStarts
    split
    · exact Or.inl rfl
    · cases hf : p.filterTimer with
      | none => exact Or.inl (by simp [hf])
      | some tid => exact Or.inr ⟨tid, by simp [hf]⟩

/-- C4 counterexample: `enhanceComboBox` — not `setupModelerMonitoring` —
creates a timer of its own, the single-shot debounce timer connected to
`safe_filter`, so the polling timer is not the plugin's only timer. -/
theorem c4_extra_timer_cex :
    (enhanceComboBox initState comboEx).1.timersCreated
      = [⟨0, true, none, Slot.safeFilter⟩] ∧
    Slot.safeFilter ≠ Slot.checkForModelerWidgets := by
  refine ⟨by decide, by decide⟩

/-- C8: filter semantics of `safe_filter` outside its debounce guards.
`filteredItems` is exactly the original items, in order, whose lower-cased
text contains every whitespace-separated lower-cased search term; with a
nonempty stripped text and at least one match the completer model becomes
that list, with no match the model is unchanged and the popup hidden, and
with an empty stripped text the model reverts to the full original list. -/
theorem c8_safe_filter_semantics (p : PState) (t : Str) (orig : List Str)
    (comp : Completer) (hU : p.isUpdating = false)
    (hN : trimL t ≠ p.lastSearchText) :
    ((filteredItems (trimL t) orig).Sublist orig ∧
      ∀ it : Str, it ∈ filteredItems (trimL t) orig ↔
        it ∈ orig ∧ ∀ term ∈ splitWs (lowerL (trimL t)),
          containsSub (lowerL it) term = true) ∧
    (trimL t ≠ [] → filteredItems (trimL t) orig ≠ [] →
      (safe_filter p t orig comp).2.items = filteredItems (trimL t) orig ∧
      (safe_filter p t orig comp).2.popupVisible = true) ∧
    (trimL t ≠ [] → filteredItems (trimL t) orig = [] →
      (safe_filter p t orig comp).2.items = comp.items ∧
      (safe_filter p t orig comp).2.popupVisible = false) ∧
    (trimL t = [] → (safe_filter p t orig comp).2.items = orig) := by
  refine ⟨⟨List.filter_sublist _, fun it => ?_⟩, ?_, ?_, ?_⟩
  · unfold filteredItems
    simp [List.mem_filter, List.all_eq_true]
  · intro hne hfil
    have hne' : (trimL t).isEmpty = false := by
      cases htr : trimL t with
      | nil => exact absurd htr hne
      | cons a as => rfl
    have hfil' : (filteredItems (trimL t) orig).isEmpty = false := by
      cases hf : filteredItems (trimL t) orig with
      | nil => exact absurd hf hfil
      | cons a as => rfl
    simp [safe_filter, hU, hN, hne', hfil']
  · intro hne hfil
    have hne' : (trimL t).isEmpty = false := by
      cases htr : trimL t with
      | nil => exact absurd htr hne
      | cons a as => rfl
    simp [safe_filter, hU, hN, hne', hfil]
  · intro htr
    have hN' : p.lastSearchText ≠ [] := fun h => hN (htr.trans h.symm)
    simp [safe_filter, hU, hN, htr, hN']

theorem c8_safe_filter_semantics_witness :
    ((filteredItems (trimL (str " beta ")) comboEx.items).Sublist comboEx.items) ∧
    (safe_filter initState (str " beta ") comboEx.items
        ⟨comboEx.items, true, true, true, false⟩).2.items
      = filteredItems (trimL (str " beta ")) comboEx.items ∧
    filteredItems (trimL (str " beta ")) comboEx.items = [str "Output dataset beta"] :=
  ⟨(c8_safe_filter_semantics initState (str " beta ") comboEx.items
      ⟨comboEx.items, true, true, true, false⟩ (by decide) (by decide)).1.1,
   ((c8_safe_filter_semantics initState (str " beta ") comboEx.items
      ⟨comboEx.items, true, true, true, false⟩ (by decide) (by decide)).2.1
      (by decide) (by decide)).1,
   by decide⟩

theorem enhanceMany_final (cs : List ComboBox) : ∀ (p : PState),
    (∀ x ∈ cs, succPath x) → cs ≠ [] →
    (enhanceMany p cs).isUpdating = false ∧
    ∃ tid : Nat, (enhanceMany p cs).filterTimer = some tid := by
  induction cs with
  | nil => intro p _ h; exact absurd rfl h
  | cons c rest ih =>
    intro p hall _
    cases rest with
    | nil =>
      have hc := hall c (List.mem_cons_self c [])
      obtain ⟨_, _, _, _, h5, _, h7, _⟩ := enhanceComboBox_success p c hc.1 hc.2
      exact ⟨h5, p.nextTimerId, h7⟩
    | cons d ds =>
      exact ih (enhanceComboBox p c).1
        (fun x hx => hall x (List.mem_cons_of_mem _ hx)) (by simp)

/-- C10: the debounce state lives on the plugin, not the combo box:
every successful `enhanceComboBox` call overwrites `_is_updating`,
`_last_search_text` and `_filter_timer` on `self`, and after enhancing
any nonempty batch of combo boxes the plugin holds a single filter timer
that the text-changed handlers of all the enhanced combo boxes share. -/
theorem c10_shared_debounce_state (p : PState) (c : ComboBox) (cs : List ComboBox)
    (hall : ∀ x ∈ c :: cs, succPath x) :
    ((enhanceComboBox p c).1.isUpdating = false ∧
     (enhanceComboBox p c).1.lastSearchText = [] ∧
     (enhanceComboBox p c).1.filterTimer = some p.nextTimerId) ∧
    ∃ tid : Nat, (enhanceMany p (c :: cs)).filterTimer = some tid ∧
      ∀ x ∈ c :: cs, textHandlerStarts x (enhanceMany p (c :: cs)) = some (tid, 300) := by
  have hc := hall c (List.mem_cons_self c cs)
  obtain ⟨_, _, _, _, h5, h6, h7, _⟩ := enhanceComboBox_success p c hc.1 hc.2
  refine ⟨⟨h5, h6, h7⟩, ?_⟩
  obtain ⟨hupd, tid, htid⟩ := enhanceMany_final (c :: cs) p hall (by simp)
  exact ⟨tid, htid, fun x _ => by
    simp [textHandlerStarts, onTextChangedStarts, hupd, htid]⟩

theorem c10_shared_debounce_state_witness :
    (enhanceComboBox initState comboEx).1.isUpdating = false ∧
    (enhanceComboBox initState comboEx).1.lastSearchText = [] ∧
    (enhanceComboBox initState comboEx).1.filterTimer = some initState.nextTimerId :=
  (c10_shared_debounce_state initState comboEx [] (by decide)).1

end MSE
